import Mathlib

/-!
Verification development for the sirocco configuration-resolution engine.

The JavaScript sources are embedded shallowly: JS values become the inductive
type `JSVal`, plain objects are association lists in insertion order, and the
fallible paths return `Except JsErr`.  Functions embedded from the repository
sources keep their source names.  The behaviour of the two third-party value
libraries the sources require — `lodash.merge` and `string-template` — is
embedded from those packages' published implementations, and the `jsonschema`
validation engine, whose code is not part of this repository, is modelled from
the specification (see the doc comments at the definitions).
-/

namespace Sirocco

/-- Shallow embedding of the JavaScript values the configuration engine
manipulates.  `vfun` is an opaque function value identified by a numeric id
(its behaviour, where a claim needs it, is supplied by an explicit
application environment); `vregex` carries the regular expression source
text; `vmagic` is the `MagicValue` marker class of `config-schema.js`
(a tag string plus the preserved original value). -/
inductive JSVal where
  | vundefined : JSVal
  | vnull : JSVal
  | vbool : Bool → JSVal
  | vnum : Int → JSVal
  | vstr : String → JSVal
  | vfun : Nat → JSVal
  | vregex : String → JSVal
  | vmagic : String → JSVal → JSVal
  | varr : List JSVal → JSVal
  | vobj : List (String × JSVal) → JSVal

/-- JavaScript truthiness of a value (`""`, `0`, `false`, `null`,
`undefined` are falsy; every object, array, function and regexp is truthy). -/
def jsTruthy : JSVal → Bool
  | .vundefined => false
  | .vnull => false
  | .vbool b => b
  | .vnum n => n != 0
  | .vstr s => !s.isEmpty
  | _ => true

/-- Check whether a value is the JS `undefined`. -/
def isUndefined : JSVal → Bool
  | .vundefined => true
  | _ => false

/-- Property read on a JS value: `v[k]`.  Reading a property of a non-object
yields `undefined` (the sources only read properties behind truthiness
guards, so the `null`/`undefined` TypeError path is never taken there). -/
def jsGet : JSVal → String → JSVal
  | .vobj fs, k => (List.lookup k fs).getD .vundefined
  | _, _ => .vundefined

/-- Embedding of `v.hasOwnProperty(k)` for the values the sources test. -/
def jsHasOwn : JSVal → String → Bool
  | .vobj fs, k => (List.lookup k fs).isSome
  | _, _ => false

/-- Embedding of the JS `a || b` defaulting idiom. -/
def jsOr (a b : JSVal) : JSVal :=
  if jsTruthy a then a else b

/-- Embedding of JS strict equality `===` as the sources use it (they compare
an environment-name value against a string from the configuration; distinct
composite values are never identical references here). -/
def jsStrictEq : JSVal → JSVal → Bool
  | .vstr a, .vstr b => a == b
  | .vnum a, .vnum b => a == b
  | .vbool a, .vbool b => a == b
  | .vnull, .vnull => true
  | .vundefined, .vundefined => true
  | _, _ => false

mutual
/-- JavaScript string coercion of a value, as used for template substitution,
property keys and message interpolation. -/
def jsToStr : JSVal → String
  | .vundefined => "undefined"
  | .vnull => "null"
  | .vbool b => if b then "true" else "false"
  | .vnum n => toString n
  | .vstr s => s
  | .vfun _ => "function"
  | .vregex p => "/" ++ p ++ "/"
  | .vmagic _ _ => "[object Object]"
  | .varr xs => jsToStrList xs
  | .vobj _ => "[object Object]"
termination_by v => sizeOf v

/-- String coercion of an array: comma-joined coercion of the elements. -/
def jsToStrList : List JSVal → String
  | [] => ""
  | [x] => jsToStr x
  | x :: y :: rest => jsToStr x ++ "," ++ jsToStrList (y :: rest)
termination_by l => sizeOf l
end

/-- Assignment `d[k] = v` on a plain object in insertion order: an existing
key is updated in place, a new key is appended. -/
def objInsert : List (String × JSVal) → String → JSVal → List (String × JSVal)
  | [], k, v => [(k, v)]
  | (k', v') :: rest, k, v =>
    if k' = k then (k', v) :: rest else (k', v') :: objInsert rest k v

/-- Object spread `{...d, ...s}`: the entries of `s` assigned over `d`. -/
def objAssign (d s : List (String × JSVal)) : List (String × JSVal) :=
  s.foldl (fun acc kv => objInsert acc kv.1 kv.2) d

mutual
/-- Embedding of the `lodash.merge` dependency (`require("lodash.merge")` in
`deployer-factory.js`; the package is not part of this repository, so its
published implementation is embedded): merging a source value over a
destination value.  Two plain objects merge recursively key by key; two
arrays merge recursively index by index, the longer destination array
keeping its trailing elements; an `undefined` source value leaves the
destination in place; every other source value replaces the destination. -/
def lmergeVal : JSVal → JSVal → JSVal
  | d, .vundefined => d
  | .vobj d, .vobj s => .vobj (lmergeFields d s)
  | .varr d, .varr s => .varr (lmergeArr d s)
  | _, s => s
termination_by _ s => sizeOf s

/-- Merge of the fields of a source object over a destination object, in the
source's key order: an `undefined` source value is skipped when the
destination already has the key, otherwise the recursively merged value is
assigned. -/
def lmergeFields : List (String × JSVal) → List (String × JSVal) → List (String × JSVal)
  | d, [] => d
  | d, (k, sv) :: rest =>
    let d2 :=
      if isUndefined sv ∧ (List.lookup k d).isSome then d
      else objInsert d k (lmergeVal ((List.lookup k d).getD .vundefined) sv)
    lmergeFields d2 rest
termination_by _ s => sizeOf s

/-- Index-wise merge of a source array over a destination array. -/
def lmergeArr : List JSVal → List JSVal → List JSVal
  | d, [] => d
  | [], sv :: srest => lmergeVal .vundefined sv :: lmergeArr [] srest
  | dv :: drest, sv :: srest =>
    (if isUndefined sv then dv else lmergeVal dv sv) :: lmergeArr drest srest
termination_by _ s => sizeOf s
end

/-- Top-level `merge(dst, ...sources)`: each source object's fields are
merged over the accumulating destination; a non-object source contributes no
own enumerable properties and is skipped (the pipeline only feeds plain
objects here). -/
def lodashMerge (dst : List (String × JSVal)) (srcs : List JSVal) : List (String × JSVal) :=
  srcs.foldl
    (fun acc s =>
      match s with
      | .vobj fs => lmergeFields acc fs
      | _ => acc)
    dst

/-- Composition of the configuration layers exactly as `getDeployerFactory`
performs it: `merge({}, globalConfig, deployTypeConfig, envConfig, args,
{ env })`. -/
def composeLayers (globalConfig deployTypeConfig envConfig args env : JSVal) : JSVal :=
  .vobj (lodashMerge [] [globalConfig, deployTypeConfig, envConfig, args, .vobj [("env", env)]])

/-- Character class of a template placeholder name in the `string-template`
package: `[0-9a-zA-Z_]` (no dash). -/
def isNameChar (c : Char) : Bool :=
  c.isAlpha || c.isDigit || c = '_'

/-- Longest prefix of placeholder-name characters of a character list,
together with the remaining characters. -/
def takeName : List Char → List Char × List Char
  | [] => ([], [])
  | c :: rest =>
    if isNameChar c then
      let p := takeName rest
      (c :: p.1, p.2)
    else ([], c :: rest)

/-- Substitution of one matched placeholder by the `string-template`
package: a key the dictionary does not own, or whose value is `null` or
`undefined`, becomes the empty string; any other value is string-coerced. -/
def substPlaceholder (dict : List (String × JSVal)) (name : String) : String :=
  match List.lookup name dict with
  | none => ""
  | some .vnull => ""
  | some .vundefined => ""
  | some v => jsToStr v

/-- Scan of the `string-template` package's global replacement of
`\{([0-9a-zA-Z_]+)\}`: the scanner walks the characters left to right; at a
match it checks whether the characters immediately before and after the
match are `{` and `}`, in which case the match is an escaped literal and
only the captured name is emitted, else the placeholder is substituted; the
scan resumes after the match.  The fuel argument is the number of characters
still allowed to be consumed; every step consumes at least one character, so
fuel equal to the input length never runs out. -/
def formatGo (dict : List (String × JSVal)) : Nat → Option Char → List Char → List Char
  | 0, _, l => l
  | _ + 1, _, [] => []
  | fuel + 1, prev, c :: rest =>
    if c = '\x7b' then
      match takeName rest with
      | (n, close :: r2) =>
        if n ≠ [] ∧ close = '\x7d' then
          if prev = some '\x7b' ∧ r2.head? = some '\x7d' then
            n ++ formatGo dict fuel (some '\x7d') r2
          else
            (substPlaceholder dict (String.mk n)).data ++ formatGo dict fuel (some '\x7d') r2
        else c :: formatGo dict fuel (some c) rest
      | (_, []) => c :: formatGo dict fuel (some c) rest
    else c :: formatGo dict fuel (some c) rest

/-- Embedding of the `string-template` package's `format(string, object)`
(`require("string-template")` in the Deployer sources; the package is not
part of this repository, so its published implementation is embedded). -/
def format (s : String) (dict : List (String × JSVal)) : String :=
  String.mk (formatGo dict s.data.length none s.data)

/-- Application environment giving the behaviour of opaque function values
invoked as resolvables: `fenv fid targetStack envName dict` is the result of
calling function `fid` with those three arguments. -/
abbrev FnEnv := Nat → String → String → List (String × JSVal) → JSVal

/-- Embedding of `resolveValue` of the current Deployer implementation
(`src/unnamed/part_001` lines 93–106): build
`dict = {stack: targetStack, env: envName, ...params}`, invoke a function
value with `(targetStack, envName, dict)`, format a string value as a
template over `dict`, and return any other value unchanged. -/
def resolveValue (fenv : FnEnv) (value : JSVal) (targetStack envName : String)
    (params : List (String × JSVal)) : JSVal :=
  let dict := objAssign [("stack", .vstr targetStack), ("env", .vstr envName)] params
  match value with
  | .vfun fid => fenv fid targetStack envName dict
  | .vstr s => .vstr (format s dict)
  | v => v

/-- Embedding of `resolveValue` of the older Deployer implementation
(`src/unnamed/part_001` lines 613–626), kept as its own definition so the
two can be compared. -/
def resolveValueOld (fenv : FnEnv) (value : JSVal) (targetStack envName : String)
    (params : List (String × JSVal)) : JSVal :=
  let dict := objAssign [("stack", .vstr targetStack), ("env", .vstr envName)] params
  match value with
  | .vfun fid => fenv fid targetStack envName dict
  | .vstr s => .vstr (format s dict)
  | v => v

/-- Error values surfaced by the embedded code, keeping the source's error
classes apart: `CallerError` and `ConfigError` from `errors.js`, the plain
`Error` thrown by strategy 4 of `getDeployTypeAndEnv`, and the engine-level
`TypeError`. -/
inductive JsErr where
  | callerError : String → JsErr
  | configError : String → JsErr
  | jsError : String → JsErr
  | typeError : String → JsErr

/-- Truthiness of an optional string-valued command-line argument (`yargs`
delivers the `--env` option and the `DEPLOY-TYPE` positional as strings when
present): absent or empty is falsy. -/
def truthyOpt : Option String → Bool
  | none => false
  | some s => !s.isEmpty

/-- Replacement of the first occurrence of a substring, the behaviour of the
JS `String.prototype.replace` with a string pattern, used on the branch name
in strategy 4. -/
def replaceFirst (s pat repl : String) : String :=
  match s.splitOn pat with
  | [] => s
  | [x] => x
  | x :: y :: rest => x ++ repl ++ String.intercalate pat (y :: rest)

/-- Command-line arguments consumed by `getDeployTypeAndEnv` and
`getDeployerFactory`, with the defaults `main.js` declares.  `extra` stands
for the remaining own properties of the `args` object, which take part in
the final merge. -/
structure Args where
  env : Option String := none
  deployType : Option String := none
  envNameEnvVar : String := "CI_ENVIRONMENT_NAME"
  envNameSeparator : String := "/"
  branchDeployType : List String := ["dev"]
  config : JSVal := .vobj []
  extra : List (String × JSVal) := []

/-- View of an `Args` record as the JS `args` object handed to the final
configuration merge (absent optional arguments contribute no key). -/
def argsObj (a : Args) : List (String × JSVal) :=
  (match a.env with
   | some e => [("env", JSVal.vstr e)]
   | none => []) ++
  (match a.deployType with
   | some dt => [("deployType", JSVal.vstr dt)]
   | none => []) ++
  [("envNameEnvVar", .vstr a.envNameEnvVar),
   ("envNameSeparator", .vstr a.envNameSeparator),
   ("branchDeployType", .varr (a.branchDeployType.map .vstr)),
   ("config", a.config)] ++ a.extra

/-- Embedding of `getDeployTypeAndEnv` of `deployer-factory.js`: the five
ordered strategies determining the deploy type and the environment name.
`procEnv` is the process environment, `gitBranch` the result of the injected
`git-branch` lookup (`Except.error` when the lookup throws).  The result
carries the deploy type, the environment value (a string except in the
strategy-5 single-element-array case, which returns the array's element as
is), and the two provenance labels. -/
def getDeployTypeAndEnv (procEnv : String → Option String) (gitBranch : Except Unit String)
    (a : Args) (deployTypes : JSVal) : Except JsErr (String × JSVal × String × String) :=
  if truthyOpt a.env ∧ truthyOpt a.deployType then
    .ok (a.deployType.getD "", .vstr (a.env.getD ""), "from DEPLOY-TYPE arg", "from --env option")
  else if truthyOpt a.env then
    let e := a.env.getD ""
    .ok ((e.splitOn "-").headD e, .vstr e, "from environment name", "from --env option")
  else if truthyOpt (procEnv a.envNameEnvVar) then
    let ciEnvName := (procEnv a.envNameEnvVar).getD ""
    let envNameParts := ciEnvName.splitOn a.envNameSeparator
    let expectedDeployType := envNameParts.headD ""
    if truthyOpt a.deployType ∧ a.deployType.getD "" ≠ expectedDeployType then
      .error (.callerError ("Environment name does not match given deploy type: " ++ ciEnvName))
    else
      .ok (expectedDeployType, .vstr (String.intercalate "-" envNameParts),
        if truthyOpt a.deployType then "from DEPLOY-TYPE arg" else "from environment name",
        "from environment variable (" ++ a.envNameEnvVar ++ ")")
  else if truthyOpt a.deployType ∧ a.branchDeployType.contains (a.deployType.getD "") then
    match gitBranch with
    | .ok brName =>
      .ok (a.deployType.getD "",
        .vstr (a.deployType.getD "" ++ "-" ++ replaceFirst brName.toLower "/" "-"),
        "from DEPLOY-TYPE arg", "from GIT branch name")
    | .error _ =>
      .error (.jsError ("Git branch name could not be determined, and " ++ a.envNameEnvVar ++ " not set"))
  else if truthyOpt a.deployType then
    let dt := a.deployType.getD ""
    if jsTruthy deployTypes ∧ jsTruthy (jsGet deployTypes dt) ∧
        jsTruthy (jsGet (jsGet deployTypes dt) "validEnvs") then
      match jsGet (jsGet deployTypes dt) "validEnvs" with
      | .varr [v] =>
        .ok (dt, v, "from DEPLOY-TYPE arg", "only one valid env name for deploy type")
      | .vstr s =>
        .ok (dt, .vstr s, "from DEPLOY-TYPE arg", "only one valid env name for deploy type")
      | _ =>
        .error (.callerError "Could not autmatically determine environment name from DEPLOY-TYPE. Consider using the --env option")
    else
      .error (.callerError "Could not autmatically determine environment name from DEPLOY-TYPE. Consider using the --env option")
  else
    .error (.callerError "Could not autmatically determine environment name. Consider specifying the DEPLOY-TYPE, or use the --env option")

/-- Application environment for validator functions stored in `validEnvs`:
`vfenv fid env` is the result of calling validator function `fid` on the
candidate environment value; `Except.error msg` stands for the function
throwing an error whose message is `msg`. -/
abbrev ValidatorFnEnv := Nat → JSVal → Except String JSVal

/-- Semantics of `RegExp.prototype.test`: `rtest pattern candidate`. -/
abbrev RegexTest := String → String → Bool

mutual
/-- Embedding of `runEnvNameValidator` of `deployer-factory.js`: a function
validator is invoked (a thrown error is wrapped into a `ConfigError`), a
string validator is compared with `===`, an array validator succeeds when
some element validates, a regular expression is tested, and any other
validator value falls through returning `undefined`. -/
def runEnvNameValidator (vfenv : ValidatorFnEnv) (rtest : RegexTest) :
    JSVal → JSVal → Except JsErr JSVal
  | .vfun fid, env =>
    match vfenv fid env with
    | .ok v => .ok v
    | .error msg =>
      .error (.configError ("An error occurred running the deploy-type \"validEnvs\" function: " ++ msg))
  | .vstr s, env => .ok (.vbool (jsStrictEq env (.vstr s)))
  | .varr vs, env => do
    let b ← someValidator vfenv rtest vs env
    pure (.vbool b)
  | .vregex p, env => .ok (.vbool (rtest p (jsToStr env)))
  | _, _ => .ok .vundefined
termination_by v _ => sizeOf v

/-- Embedding of `envNameValidator.some(ve => runEnvNameValidator(ve, env))`:
sequential disjunction over the element validators, propagating a thrown
error and using JS truthiness of each element's result. -/
def someValidator (vfenv : ValidatorFnEnv) (rtest : RegexTest) :
    List JSVal → JSVal → Except JsErr Bool
  | [], _ => .ok false
  | v :: rest, env => do
    let r ← runEnvNameValidator vfenv rtest v env
    if jsTruthy r then pure true else someValidator vfenv rtest rest env
termination_by v _ => sizeOf v
end

/-- Embedding of `checkForValidEnv` of `deployer-factory.js`: a missing or
falsy `validEnvs` accepts anything, otherwise the validator is run. -/
def checkForValidEnv (vfenv : ValidatorFnEnv) (rtest : RegexTest)
    (deployTypeConfig env : JSVal) : Except JsErr JSVal :=
  let validEnvs := jsGet deployTypeConfig "validEnvs"
  if jsTruthy validEnvs then runEnvNameValidator vfenv rtest validEnvs env
  else .ok (.vbool true)

/-- Embedding of `getDeployerFactory` of `deployer-factory.js` up to the
configuration object captured by the returned factory closure: resolve the
deploy type and environment, check the deploy type exists and the
environment is valid whenever the document declares `deployTypes`, and merge
`{}, global, deployTypeConfig, envConfig, args, { env }`.  (The logging
calls and the `createDeployer` invocation inside the returned closure are
presentation and live outside these sources.) -/
def getDeployerFactory (procEnv : String → Option String) (gitBranch : Except Unit String)
    (vfenv : ValidatorFnEnv) (rtest : RegexTest) (a : Args) : Except JsErr JSVal := do
  let config := a.config
  let dts := jsGet config "deployTypes"
  let r ← getDeployTypeAndEnv procEnv gitBranch a dts
  let deployType := r.1
  let env := r.2.1
  let deployTypeConfig := jsOr (jsGet (jsOr dts (.vobj [])) deployType) (.vobj [])
  if jsTruthy dts then
    if !(jsHasOwn dts deployType) then
      throw (.callerError ("No such deploy type defined in config: " ++ deployType))
    let ok ← checkForValidEnv vfenv rtest (jsGet dts deployType) env
    if !(jsTruthy ok) then
      throw (.callerError ("Environment is not valid for specified deploy type: " ++ jsToStr env))
  let globalConfig := jsOr (jsGet config "global") (.vobj [])
  let envConfig := jsOr (jsGet (jsOr (jsGet config "envs") (.vobj [])) (jsToStr env)) (.vobj [])
  pure (composeLayers globalConfig deployTypeConfig envConfig (.vobj (argsObj a)) env)

mutual
/-- Walk of the document substituting every function value with a
`function`-tagged marker and every regular-expression value with a
`regexp`-tagged marker, the original value preserved inside the marker.
This is the effect of `coerceFunctions` of `config-schema.js` applied at
every property the validation engine visits (the engine's traversal is
modelled from the specification, which has it walk the whole document). -/
def coerceWalk : JSVal → JSVal
  | .vfun fid => .vmagic "function" (.vfun fid)
  | .vregex p => .vmagic "regexp" (.vregex p)
  | .varr xs => .varr (coerceList xs)
  | .vobj fs => .vobj (coerceFields fs)
  | v => v
termination_by v => sizeOf v

/-- Marker substitution over the elements of an array. -/
def coerceList : List JSVal → List JSVal
  | [] => []
  | x :: rest => coerceWalk x :: coerceList rest
termination_by l => sizeOf l

/-- Marker substitution over the fields of an object. -/
def coerceFields : List (String × JSVal) → List (String × JSVal)
  | [] => []
  | (k, v) :: rest => (k, coerceWalk v) :: coerceFields rest
termination_by l => sizeOf l
end

mutual
/-- Embedding of `uncoerceMagicValues` of `config-schema.js`: arrays are
walked element-wise, a marker is replaced by its preserved original, and any
other value of JS type `object` is walked with `Object.entries`.  A `null`
value passes the `typeof config === "object"` test and is handed to
`Object.entries`, which throws a `TypeError`; a regular-expression object
takes the same branch but has no own enumerable properties, so the walk
returns it unchanged.  Values of any other type are returned as they are. -/
def uncoerceMagicValues : JSVal → Except String JSVal
  | .varr xs => do
    let ys ← uncoerceList xs
    pure (.varr ys)
  | .vmagic _ orig => .ok orig
  | .vnull => .error "Cannot convert undefined or null to object"
  | .vobj fs => do
    let gs ← uncoerceFields fs
    pure (.vobj gs)
  | v => .ok v
termination_by v => sizeOf v

/-- Marker restoration over the elements of an array. -/
def uncoerceList : List JSVal → Except String (List JSVal)
  | [] => .ok []
  | x :: rest => do
    let y ← uncoerceMagicValues x
    let ys ← uncoerceList rest
    pure (y :: ys)
termination_by l => sizeOf l

/-- Marker restoration over the fields of an object. -/
def uncoerceFields : List (String × JSVal) → Except String (List (String × JSVal))
  | [] => .ok []
  | (k, v) :: rest => do
    let w ← uncoerceMagicValues v
    let ws ← uncoerceFields rest
    pure ((k, w) :: ws)
termination_by l => sizeOf l
end

/-- Check of the `^[a-zA-Z0-9_-]+$` pattern shared by the stack-name,
deploy-type, environment-name and parameter-name schemas of
`config-schema.js`. -/
def isNamePattern (s : String) : Bool :=
  !s.isEmpty && s.data.all (fun c => c.isAlpha || c.isDigit || c = '-' || c = '_')

/-- Match of the `/config/is-function` sub-schema: a marker tagged
`function`. -/
def isFunctionMarker : JSVal → Bool
  | .vmagic ty _ => ty == "function"
  | _ => false

/-- Match of the `/config/is-regex` sub-schema: a marker tagged `regexp`. -/
def isRegexMarker : JSVal → Bool
  | .vmagic ty _ => ty == "regexp"
  | _ => false

/-- Match of the `/config/string-template` sub-schema: any string. -/
def isStringV : JSVal → Bool
  | .vstr _ => true
  | _ => false

/-- Match of the `/config/resolvable-type` sub-schema: a function marker or
a string template. -/
def isResolvable (v : JSVal) : Bool :=
  isFunctionMarker v || isStringV v

/-- Match of the `/config/auth-command` sub-schema: a function marker, a
command string, or a non-empty array of command-argument strings (the source
schema spells the item type with a stray trailing space, `"string "`; the
intended string item is modelled). -/
def checkAuthCmd (v : JSVal) : Bool :=
  isFunctionMarker v || isStringV v ||
    (match v with
     | .varr xs => !xs.isEmpty && xs.all isStringV
     | _ => false)

/-- Match of the `capabilities` property schema: an array of strings. -/
def checkCapabilities : JSVal → Bool
  | .varr xs => xs.all isStringV
  | _ => false

/-- Match of one `params` entry value: a string, number, boolean or
resolvable. -/
def checkParamValue (v : JSVal) : Bool :=
  match v with
  | .vnum _ => true
  | .vbool _ => true
  | _ => isResolvable v

/-- Match of the `params` property schema: an object whose property names
match the name pattern and whose values are strings, numbers, booleans or
resolvables. -/
def checkParams : JSVal → Bool
  | .vobj fs => fs.all (fun kv => isNamePattern kv.1 && checkParamValue kv.2)
  | _ => false

/-- Match of the `tags` property schema: an object whose values are
resolvables (its property names, being strings, always match the resolvable
property-name schema). -/
def checkTags : JSVal → Bool
  | .vobj fs => fs.all (fun kv => isResolvable kv.2)
  | _ => false

/-- Property names declared by `coreArgSetSchema`. -/
def argsSetKeys : List String :=
  ["deployPrefix", "deployBucket", "authCmd", "inputTemplate", "outputTemplate",
   "cfnStackName", "role", "tags", "capabilities", "params"]

/-- Check of one declared arg-set property's value; a property not declared
by the schema passes (its admissibility is decided by the caller's
`additionalProperties` setting). -/
def checkArgsField (k : String) (v : JSVal) : Bool :=
  if k = "deployPrefix" ∨ k = "deployBucket" ∨ k = "inputTemplate" ∨ k = "outputTemplate" ∨
      k = "cfnStackName" ∨ k = "role" then isResolvable v
  else if k = "authCmd" then checkAuthCmd v
  else if k = "tags" then checkTags v
  else if k = "capabilities" then checkCapabilities v
  else if k = "params" then checkParams v
  else true

/-- Match of the `/config/args` schema (`coreArgSetSchema` with
`additionalProperties: false`): an object all of whose keys are declared and
whose declared values match. -/
def checkArgsSet : JSVal → Bool
  | .vobj fs => fs.all (fun kv => argsSetKeys.contains kv.1 && checkArgsField kv.1 kv.2)
  | _ => false

mutual
/-- Match of the `/config/valid-env` schema: a string, a regexp marker, a
function marker, or an array of valid-env values. -/
def checkValidEnv : JSVal → Bool
  | .vstr _ => true
  | .vmagic ty _ => ty == "regexp" || ty == "function"
  | .varr xs => checkValidEnvList xs
  | _ => false
termination_by v => sizeOf v

/-- Match of every element of an array against `/config/valid-env`. -/
def checkValidEnvList : List JSVal → Bool
  | [] => true
  | v :: rest => checkValidEnv v && checkValidEnvList rest
termination_by l => sizeOf l
end

/-- Match of one deploy-type layer: `coreArgSetSchema` (type object, declared
properties checked) extended with a `validEnv` property, without an
`additionalProperties` restriction, so undeclared keys — among them the
`validEnvs` key the rest of the code actually reads — pass through
unchecked. -/
def checkDeployTypeLayer : JSVal → Bool
  | .vobj fs =>
    fs.all (fun kv => if kv.1 = "validEnv" then checkValidEnv kv.2 else checkArgsField kv.1 kv.2)
  | _ => false

/-- Match of the `defaultStacks` property: a stack name or an array of stack
names. -/
def checkDefaultStacks : JSVal → Bool
  | .vstr s => isNamePattern s
  | .varr xs =>
    xs.all (fun x =>
      match x with
      | .vstr s => isNamePattern s
      | _ => false)
  | _ => false

/-- Property names declared by the root config schema. -/
def configKeys : List String :=
  ["defaultStacks", "global", "deployTypes", "envs"]

/-- Check of one root config property's value.  The `deployTypes` and
`envs` schemas declare no `type`, so a non-object value there is not
constrained; their object form has every key matched against the name
pattern and every value against the respective layer schema. -/
def checkConfigField (k : String) (v : JSVal) : Bool :=
  if k = "defaultStacks" then checkDefaultStacks v
  else if k = "global" then checkArgsSet v
  else if k = "deployTypes" then
    match v with
    | .vobj dts => dts.all (fun kv => isNamePattern kv.1 && checkDeployTypeLayer kv.2)
    | _ => true
  else if k = "envs" then
    match v with
    | .vobj es => es.all (fun kv => isNamePattern kv.1 && checkArgsSet kv.2)
    | _ => true
  else false

/-- Structural validation of the coerced document against the `/config`
schema of `config-schema.js`.  The schemas themselves are embedded from the
source; the `jsonschema` engine interpreting them is not part of this
repository and is modelled from the specification: markers match the
dedicated is-function/is-regexp sub-schemas wherever a resolvable or an
environment-name validator is expected, and the document must be an object
with only the declared root properties. -/
def checkConfig : JSVal → Bool
  | .vobj fs => fs.all (fun kv => configKeys.contains kv.1 && checkConfigField kv.1 kv.2)
  | _ => false

/-- Embedding of `validateConfig` of `config-schema.js`, parameterised by
the structural check the validation engine performs: the document is
coerced (the engine's pre-validation property hook), the engine collects the
schema violations, `uncoerceMagicValues` restores the markers — this runs
before the error check, so a `TypeError` it throws pre-empts the
`CallerError` — and only then a non-empty violation list is reported as a
`CallerError`. -/
def validateConfigWith (check : JSVal → Bool) (config : JSVal) : Except JsErr JSVal :=
  let coerced := coerceWalk config
  let noErrors := check coerced
  match uncoerceMagicValues coerced with
  | .error m => .error (.typeError m)
  | .ok restored =>
    if noErrors then .ok restored
    else .error (.callerError "One or more validation errors were detected in the given config file")

/-- Validation of a raw configuration document, the `validateConfig` export
of `config-schema.js`. -/
def validateConfig (config : JSVal) : Except JsErr JSVal :=
  validateConfigWith checkConfig config

/-- Identifier of `DEFAULT_STACK_NAME_GENERATOR`. -/
def fidDefaultStackNameGenerator : Nat := 0

/-- Identifier of `DEFAULT_INPUT_TEMPLATE`. -/
def fidDefaultInputTemplate : Nat := 1

/-- Identifier of `DEFAULT_OUTPUT_TEMPLATE`. -/
def fidDefaultOutputTemplate : Nat := 2

/-- Identifier of `DEFAULT_DEPLOY_BUCKET_PREFIX` (the default deploy-bucket
prefix generator). -/
def fidDefaultDeployBucketPfx : Nat := 3

/-- Application environment implementing the four default-value functions of
the Deployer module: `DEFAULT_STACK_NAME_GENERATOR` produces
`targetStack-envName`, `DEFAULT_INPUT_TEMPLATE` produces
`stacks/targetStack/stack.yml`, `DEFAULT_OUTPUT_TEMPLATE` produces
`build/stacks/targetStack/envName/stack.yml`, and the default deploy-bucket
prefix generator produces `targetStack/envName`.  Other function ids behave
as supplied by `more`. -/
def defaultFnEnv (more : FnEnv) : FnEnv := fun fid targetStack envName dict =>
  if fid = fidDefaultStackNameGenerator then .vstr (targetStack ++ "-" ++ envName)
  else if fid = fidDefaultInputTemplate then .vstr ("stacks/" ++ targetStack ++ "/stack.yml")
  else if fid = fidDefaultOutputTemplate then
    .vstr ("build/stacks/" ++ targetStack ++ "/" ++ envName ++ "/stack.yml")
  else if fid = fidDefaultDeployBucketPfx then .vstr (targetStack ++ "/" ++ envName)
  else more fid targetStack envName dict

/-- Configuration object destructured by the `Deployer` constructor.  Every
field holds the raw property value, `vundefined` standing for an absent
property; the JS destructuring defaults are applied by the constructor
itself (a destructuring default fires exactly when the property is
`undefined`).  The source field `deployBucketPrefix` is named
`deployBucketPfx` here; `envNameParamName` and `stackNameParamName` are
plain strings used as parameter keys. -/
structure DeployerConfig where
  deployBucket : JSVal := .vundefined
  deployBucketPfx : JSVal := .vundefined
  role : JSVal := .vundefined
  envNameParamName : String := "env"
  stackNameParamName : String := "stack"
  cfnStackName : JSVal := .vundefined
  inputTemplate : JSVal := .vundefined
  outputTemplate : JSVal := .vundefined
  stackTags : JSVal := .vundefined
  authenticationCommand : JSVal := .vundefined
  capabilities : JSVal := .vundefined
  dryRun : JSVal := .vundefined

/-- Application of a JS destructuring default: the default value replaces an
`undefined` property. -/
def effDefault (v dflt : JSVal) : JSVal :=
  if isUndefined v then dflt else v

/-- Embedding of Node's `path.dirname` as the constructor uses it: a string
argument yields its directory part, any other argument makes `path.dirname`
throw a `TypeError` (`ERR_INVALID_ARG_TYPE`).  Only the string-type guard
matters to the claims; the directory computation is the plain
strip-after-last-slash one. -/
def pathDirname : JSVal → Except JsErr String
  | .vstr s =>
    .ok (match (s.splitOn "/").dropLast with
         | [] => "."
         | ps => String.intercalate "/" ps)
  | _ => .error (.typeError "The \"path\" argument must be of type string")

/-- Emptiness test of the constructor's required-value check:
`value == null || value.length === 0`.  Loose equality with `null` catches
`null` and `undefined`; only strings and arrays have a numeric `length`. -/
def isEmptyOrNull : JSVal → Bool
  | .vnull => true
  | .vundefined => true
  | .vstr s => s.isEmpty
  | .varr xs => xs.isEmpty
  | _ => false

/-- Embedding of the constructor's `forEach` over the six required
properties: the first property whose resolved value is empty or null aborts
construction with the `CallerError` naming it. -/
def checkProps : List (String × JSVal) → Except JsErr Unit
  | [] => .ok ()
  | (n, v) :: rest =>
    if isEmptyOrNull v then
      .error (.callerError ("Resolved value for " ++ n ++ " cannot be empty or null"))
    else checkProps rest

/-- Own enumerable string-keyed entries of a value, the `Object.entries`
view the stack-tags branch iterates (an object gives its fields, an array or
a string its indexed elements, every other non-null value an empty list;
the `null`/`undefined` TypeError case is handled at the call site). -/
def jsEntries : JSVal → List (String × JSVal)
  | .vobj fs => fs
  | .varr xs => (xs.enum.map fun p => (toString p.1, p.2))
  | .vstr s => (s.data.enum.map fun p => (toString p.1, JSVal.vstr (String.mk [p.2])))
  | _ => []

/-- Parameter dictionary the constructor builds:
`{[envNameParamName]: envName, [stackNameParamName]: targetStack,
...buildObject(keys(params), k => localResolve(params[k]))}`.  The `params`
values are resolved while `this.parameters` is still the initial empty
object, so each entry sees only the injected `stack`/`env` defaults, not its
siblings. -/
def deployerParameters (fenv : FnEnv) (targetStack envName : String) (cfg : DeployerConfig)
    (params : List (String × JSVal)) : List (String × JSVal) :=
  objAssign [(cfg.envNameParamName, .vstr envName), (cfg.stackNameParamName, .vstr targetStack)]
    (params.map fun kv => (kv.1, resolveValue fenv kv.2 targetStack envName []))

/-- Resolved values of the six required properties, in the order the
constructor checks them. -/
def resolvedSix (fenv : FnEnv) (targetStack envName : String) (cfg : DeployerConfig)
    (params : List (String × JSVal)) : List (String × JSVal) :=
  let parameters := deployerParameters fenv targetStack envName cfg params
  let localResolve := fun v => resolveValue fenv v targetStack envName parameters
  [("inputTemplate", localResolve (effDefault cfg.inputTemplate (.vfun fidDefaultInputTemplate))),
   ("outputTemplate", localResolve (effDefault cfg.outputTemplate (.vfun fidDefaultOutputTemplate))),
   ("cfnStackName", localResolve (effDefault cfg.cfnStackName (.vfun fidDefaultStackNameGenerator))),
   ("deployBucket", localResolve cfg.deployBucket),
   ("deployBucketPrefix", localResolve (effDefault cfg.deployBucketPfx (.vfun fidDefaultDeployBucketPfx))),
   ("role", localResolve (effDefault cfg.role (.vstr "default")))]

/-- Fully constructed deployer: the resolved per-stack deployment
descriptor. -/
structure Deployer where
  targetStack : String
  envName : String
  parameters : List (String × JSVal)
  authenticationCommand : JSVal
  inputTemplate : JSVal
  outputTemplate : JSVal
  cfnStackName : JSVal
  outputDir : String
  deployBucket : JSVal
  deployBucketPfx : JSVal
  role : JSVal
  capabilities : JSVal
  dryRun : JSVal
  stackTags : JSVal

/-- Embedding of the `Deployer` constructor of the current implementation
(`src/unnamed/part_001` lines 154–227): falsy stack or environment names are
rejected; the parameter dictionary is built with the `params` values
resolved against the still-empty parameter object; the templates, stack
name, bucket, bucket prefix and role are resolved against the now-fixed
parameters; `path.dirname` of the resolved output template is taken —
throwing before the required-value check when that value is not a string —
the six required properties are checked in source order, and finally the
stack tags are produced (a function value is invoked once with the resolved
parameters; an object has its keys and values resolved individually;
`Object.entries(null)` throws). -/
def mkDeployer (fenv : FnEnv) (targetStack envName : String) (cfg : DeployerConfig)
    (params : List (String × JSVal)) : Except JsErr Deployer := do
  if targetStack.isEmpty then
    throw (.callerError "Target stack not specified")
  if envName.isEmpty then
    throw (.callerError "Environment name not specified")
  let parameters := deployerParameters fenv targetStack envName cfg params
  let localResolve := fun v => resolveValue fenv v targetStack envName parameters
  let six := resolvedSix fenv targetStack envName cfg params
  let rOutput := localResolve (effDefault cfg.outputTemplate (.vfun fidDefaultOutputTemplate))
  let outputDir ← pathDirname rOutput
  let _ ← checkProps six
  let stackTags := effDefault cfg.stackTags (.vobj [])
  let tags ← match stackTags with
    | .vfun fid => pure (fenv fid targetStack envName parameters)
    | .vnull => throw (.typeError "Cannot convert undefined or null to object")
    | t =>
      pure (.vobj ((jsEntries t).map fun kv =>
        (jsToStr (localResolve (.vstr kv.1)), localResolve kv.2)))
  pure {
    targetStack, envName, parameters, outputDir,
    authenticationCommand := effDefault cfg.authenticationCommand .vnull,
    inputTemplate := (six.headD ("", .vundefined)).2,
    outputTemplate := rOutput,
    cfnStackName := ((six.drop 2).headD ("", .vundefined)).2,
    deployBucket := ((six.drop 3).headD ("", .vundefined)).2,
    deployBucketPfx := ((six.drop 4).headD ("", .vundefined)).2,
    role := ((six.drop 5).headD ("", .vundefined)).2,
    capabilities := effDefault cfg.capabilities (.varr []),
    dryRun := effDefault cfg.dryRun (.vbool false),
    stackTags := tags }

/-- Concrete process environment with no variables set. -/
def procEnvEmpty : String → Option String := fun _ => none

/-- Concrete validator-function environment whose functions all return
`undefined`. -/
def validatorFnNone : ValidatorFnEnv := fun _ _ => .ok .vundefined

/-- Concrete regular-expression semantics matching nothing. -/
def regexTestFalse : RegexTest := fun _ _ => false

/-- Concrete resolvable-function environment implementing only the
Deployer's default-value functions. -/
def fnEnvDefaults : FnEnv := defaultFnEnv (fun _ _ _ _ => .vundefined)

/-- Values the lodash merge assigns wholesale: everything but plain objects,
arrays, and `undefined`. -/
def isScalar : JSVal → Bool
  | .vobj _ => false
  | .varr _ => false
  | .vundefined => false
  | _ => true

theorem lookup_objInsert_self (d : List (String × JSVal)) (k : String) (v : JSVal) :
    List.lookup k (objInsert d k v) = some v := by
  induction d with
  | nil => simp [objInsert, List.lookup]
  | cons hd tl ih =>
    obtain ⟨k', v'⟩ := hd
    by_cases h : k' = k
    · subst h
      simp [objInsert, List.lookup]
    · have hb : (k == k') = false := beq_eq_false_iff_ne.mpr (Ne.symm h)
      simpa [objInsert, h, List.lookup, hb] using ih

theorem lookup_objInsert_ne (d : List (String × JSVal)) (k k' : String) (v : JSVal)
    (h : k' ≠ k) : List.lookup k' (objInsert d k v) = List.lookup k' d := by
  have hb : (k' == k) = false := beq_eq_false_iff_ne.mpr h
  induction d with
  | nil => simp [objInsert, List.lookup, hb]
  | cons hd tl ih =>
    obtain ⟨k0, v0⟩ := hd
    by_cases hk : k0 = k
    · subst hk
      simp [objInsert, List.lookup, hb]
    · by_cases hk' : k0 = k'
      · subst hk'
        simp [objInsert, hk, List.lookup]
      · have hb' : (k' == k0) = false := beq_eq_false_iff_ne.mpr (Ne.symm hk')
        simpa [objInsert, hk, List.lookup, hb'] using ih

theorem lmergeVal_scalar (u v : JSVal) (h : isScalar v = true) : lmergeVal u v = v := by
  cases u <;> cases v <;> simp_all [isScalar, lmergeVal]

theorem lookup_none_of_not_mem_keys (l : List (String × JSVal)) (k : String)
    (h : k ∉ l.map Prod.fst) : List.lookup k l = none := by
  induction l with
  | nil => simp [List.lookup]
  | cons hd tl ih =>
    have h1 : hd.1 ≠ k := fun he => h (by simp [he])
    have h2 : k ∉ tl.map Prod.fst := fun hm => h (by simp [hm])
    simpa [List.lookup, show (k == hd.1) = false from beq_eq_false_iff_ne.mpr (Ne.symm h1)]
      using ih h2

/-- Merging a source object that does not define a key leaves that key's
destination binding untouched. -/
theorem lookup_lmergeFields_absent (s d : List (String × JSVal)) (k : String)
    (h : List.lookup k s = none) :
    List.lookup k (lmergeFields d s) = List.lookup k d := by
  induction s generalizing d with
  | nil => simp [lmergeFields]
  | cons hd tl ih =>
    obtain ⟨k', sv⟩ := hd
    have hne : k ≠ k' := by
      intro he
      simp [List.lookup, he] at h
    have htl : List.lookup k tl = none := by
      simpa [List.lookup, show (k == k') = false from beq_eq_false_iff_ne.mpr hne] using h
    rw [lmergeFields, ih _ htl]
    by_cases hskip : isUndefined sv = true ∧ (List.lookup k' d).isSome = true
    · rw [if_pos hskip]
    · rw [if_neg hskip, lookup_objInsert_ne _ _ _ _ hne]

/-- Master characterisation of one merged key: when the source object's
first binding of `k` is `sv` (keys unduplicated) and `sv` is not
`undefined`, the merged object binds `k` to `sv` merged over whatever the
destination bound. -/
theorem lookup_lmergeFields_src (s d : List (String × JSVal)) (k : String) (sv : JSVal)
    (hnd : (s.map Prod.fst).Nodup) (h : List.lookup k s = some sv) (hu : isUndefined sv = false) :
    List.lookup k (lmergeFields d s) =
      some (lmergeVal ((List.lookup k d).getD .vundefined) sv) := by
  induction s generalizing d with
  | nil => simp [List.lookup] at h
  | cons hd tl ih =>
    obtain ⟨k', sv'⟩ := hd
    have hnd' : (tl.map Prod.fst).Nodup := (List.nodup_cons.mp hnd).2
    by_cases hk : k = k'
    · subst hk
      have hsv : sv' = sv := by
        simpa [List.lookup] using h
      have habs : List.lookup k tl = none := by
        refine lookup_none_of_not_mem_keys _ _ ?_
        simpa using (List.nodup_cons.mp hnd).1
      rw [lmergeFields, lookup_lmergeFields_absent _ _ _ habs]
      have hskip : ¬(isUndefined sv' = true ∧ (List.lookup k d).isSome = true) := by
        simp [hsv, hu]
      rw [if_neg hskip, hsv, lookup_objInsert_self]
    · have htl : List.lookup k tl = some sv := by
        simpa [List.lookup, show (k == k') = false from beq_eq_false_iff_ne.mpr hk] using h
      rw [lmergeFields]
      by_cases hskip : isUndefined sv' = true ∧ (List.lookup k' d).isSome = true
      · rw [if_pos hskip]
        exact ih _ hnd' htl
      · rw [if_neg hskip, ih _ hnd' htl, lookup_objInsert_ne _ _ _ _ hk]

/-- Merging an array of wholesale-replaced values over another array keeps
the source's elements index by index and the destination's trailing
elements. -/
theorem lmergeArr_scalar (ys : List JSVal) (xs : List JSVal)
    (h : ∀ y ∈ ys, isScalar y = true) :
    lmergeArr xs ys = ys ++ xs.drop ys.length := by
  induction ys generalizing xs with
  | nil => cases xs <;> simp [lmergeArr]
  | cons y ys' ih =>
    have hy : isScalar y = true := h y (by simp)
    have hys' : ∀ y' ∈ ys', isScalar y' = true := fun y' hm => h y' (by simp [hm])
    have hyu : isUndefined y = false := by
      cases y <;> simp_all [isScalar, isUndefined]
    cases xs with
    | nil =>
      simp [lmergeArr, lmergeVal_scalar _ _ hy, ih [] hys']
    | cons x xs' =>
      simp [lmergeArr, hyu, lmergeVal_scalar _ _ hy, ih xs' hys']

theorem lookup_env_singleton (envv : JSVal) (k : String) (hk : k ≠ "env") :
    List.lookup k [("env", envv)] = none := by
  simp [List.lookup, show (k == "env") = false from beq_eq_false_iff_ne.mpr hk]

/-- Claim C2, counterexample: composing a document whose `global` layer sets
`capabilities: ["A", "B"]` and whose deploy-type layer sets
`capabilities: ["C"]` (run end to end through `getDeployerFactory` with an
explicit `dev`/`dev-1` pair) yields the element-wise lodash merge
`["C", "B"]` for `capabilities`, not the deploy-type layer's list `["C"]`
replaced wholesale, refuting the claim that a list present in a later layer
becomes the effective value exactly. -/
theorem c2_list_replacement_counterexample :
    (getDeployerFactory procEnvEmpty (.error ()) validatorFnNone regexTestFalse
      { env := some "dev-1", deployType := some "dev",
        config := .vobj
          [("global", .vobj [("capabilities", .varr [.vstr "A", .vstr "B"])]),
           ("deployTypes", .vobj
             [("dev", .vobj
               [("validEnvs", .vstr "dev-1"),
                ("capabilities", .varr [.vstr "C"])])])] }).map
      (fun v => jsGet v "capabilities")
      = .ok (.varr [.vstr "C", .vstr "B"]) ∧
    JSVal.varr [.vstr "C", .vstr "B"] ≠ .varr [.vstr "C"] := by
  constructor
  · simp +decide [getDeployerFactory, getDeployTypeAndEnv, truthyOpt, jsGet, jsOr, jsTruthy,
      jsHasOwn, checkForValidEnv, runEnvNameValidator, jsStrictEq, jsToStr, List.lookup,
      String.isEmpty, procEnvEmpty, validatorFnNone, regexTestFalse,
      bind, Except.bind, pure, Except.pure, throw, throwThe, MonadExceptOf.throw,
      Functor.map, Except.map, composeLayers, lodashMerge, lmergeFields, lmergeVal,
      lmergeArr, objInsert, isUndefined, argsObj]
  · simp

/-- Claim C2 (amended): the composed effective layer obeys the precedence
global < deploy-type layer < environment layer < overrides key by key, with
scalar values replaced wholesale by the last layer defining the key and
values preserved from the earliest defining layer when no later layer
overrides; a list-valued field present in a later layer is however merged
element-wise by lodash — element `i` of the later list replaces element `i`
of the earlier list, and the trailing elements of a longer earlier list are
preserved — never replaced wholesale and never concatenated. -/
theorem c2_merge_precedence_amended
    (G D E O : List (String × JSVal)) (envv : JSVal) (k : String) (v : JSVal)
    (hk : k ≠ "env") :
    ((O.map Prod.fst).Nodup → List.lookup k O = some v → isScalar v = true →
      jsGet (composeLayers (.vobj G) (.vobj D) (.vobj E) (.vobj O) envv) k = v)
    ∧ ((E.map Prod.fst).Nodup → List.lookup k O = none → List.lookup k E = some v →
        isScalar v = true →
      jsGet (composeLayers (.vobj G) (.vobj D) (.vobj E) (.vobj O) envv) k = v)
    ∧ ((D.map Prod.fst).Nodup → List.lookup k O = none → List.lookup k E = none →
        List.lookup k D = some v → isScalar v = true →
      jsGet (composeLayers (.vobj G) (.vobj D) (.vobj E) (.vobj O) envv) k = v)
    ∧ ((G.map Prod.fst).Nodup → List.lookup k O = none → List.lookup k E = none →
        List.lookup k D = none → List.lookup k G = some v → isScalar v = true →
      jsGet (composeLayers (.vobj G) (.vobj D) (.vobj E) (.vobj O) envv) k = v)
    ∧ (∀ xs ys, (G.map Prod.fst).Nodup → (D.map Prod.fst).Nodup →
        List.lookup k O = none → List.lookup k E = none →
        List.lookup k D = some (.varr ys) → List.lookup k G = some (.varr xs) →
        (∀ y ∈ ys, isScalar y = true) →
      jsGet (composeLayers (.vobj G) (.vobj D) (.vobj E) (.vobj O) envv) k
        = .varr (ys ++ xs.drop ys.length)) := by
  have henv : List.lookup k [("env", envv)] = none := lookup_env_singleton envv k hk
  refine ⟨?_, ?_, ?_, ?_, ?_⟩
  · intro hnd hO hs
    simp only [composeLayers, lodashMerge, List.foldl, jsGet]
    rw [lookup_lmergeFields_absent _ _ _ henv,
      lookup_lmergeFields_src _ _ _ _ hnd hO (by cases v <;> simp_all [isScalar, isUndefined]),
      lmergeVal_scalar _ _ hs]
    rfl
  · intro hnd hO hE hs
    simp only [composeLayers, lodashMerge, List.foldl, jsGet]
    rw [lookup_lmergeFields_absent _ _ _ henv, lookup_lmergeFields_absent _ _ _ hO,
      lookup_lmergeFields_src _ _ _ _ hnd hE (by cases v <;> simp_all [isScalar, isUndefined]),
      lmergeVal_scalar _ _ hs]
    rfl
  · intro hnd hO hE hD hs
    simp only [composeLayers, lodashMerge, List.foldl, jsGet]
    rw [lookup_lmergeFields_absent _ _ _ henv, lookup_lmergeFields_absent _ _ _ hO,
      lookup_lmergeFields_absent _ _ _ hE,
      lookup_lmergeFields_src _ _ _ _ hnd hD (by cases v <;> simp_all [isScalar, isUndefined]),
      lmergeVal_scalar _ _ hs]
    rfl
  · intro hnd hO hE hD hG hs
    simp only [composeLayers, lodashMerge, List.foldl, jsGet]
    rw [lookup_lmergeFields_absent _ _ _ henv, lookup_lmergeFields_absent _ _ _ hO,
      lookup_lmergeFields_absent _ _ _ hE, lookup_lmergeFields_absent _ _ _ hD,
      lookup_lmergeFields_src _ _ _ _ hnd hG (by cases v <;> simp_all [isScalar, isUndefined]),
      lmergeVal_scalar _ _ hs]
    rfl
  · intro xs ys hndG hndD hO hE hD hG hys
    simp only [composeLayers, lodashMerge, List.foldl, jsGet]
    rw [lookup_lmergeFields_absent _ _ _ henv, lookup_lmergeFields_absent _ _ _ hO,
      lookup_lmergeFields_absent _ _ _ hE,
      lookup_lmergeFields_src _ _ _ _ hndD hD (by simp [isUndefined]),
      lookup_lmergeFields_src _ _ _ _ hndG hG (by simp [isUndefined])]
    simp [lmergeVal, lmergeArr_scalar ys xs hys]

/-- Witness instantiating claim C2's amended theorem: overrides beat the
environment layer on the scalar `role`, and the deploy-type layer's
`capabilities` list `["C"]` merges element-wise over the global `["A","B"]`
to `["C","B"]`. -/
theorem c2_merge_precedence_amended_witness :
    jsGet (composeLayers (.vobj [("role", .vstr "g")]) (.vobj []) (.vobj [("role", .vstr "e")])
      (.vobj [("role", .vstr "o")]) (.vstr "dev-1")) "role" = .vstr "o" ∧
    jsGet (composeLayers (.vobj [("capabilities", .varr [.vstr "A", .vstr "B"])])
      (.vobj [("capabilities", .varr [.vstr "C"])]) (.vobj []) (.vobj []) (.vstr "dev-1"))
      "capabilities" = .varr [.vstr "C", .vstr "B"] := by
  constructor
  · exact (c2_merge_precedence_amended [("role", .vstr "g")] [] [("role", .vstr "e")]
      [("role", .vstr "o")] (.vstr "dev-1") "role" (.vstr "o") (by decide)).1
      (by decide) (by simp [List.lookup]) (by decide)
  · exact ((c2_merge_precedence_amended [("capabilities", .varr [.vstr "A", .vstr "B"])]
      [("capabilities", .varr [.vstr "C"])] [] [] (.vstr "dev-1") "capabilities"
      .vundefined (by decide)).2.2.2.2 [.vstr "A", .vstr "B"] [.vstr "C"]
      (by decide) (by decide) (by simp [List.lookup]) (by simp [List.lookup])
      (by simp [List.lookup]) (by simp [List.lookup])
      (by intro y hy; simp at hy; simp [hy, isScalar]))

/-- Claim C3, counterexample: running `getDeployerFactory` on a document
whose deploy-type layer declares `validEnvs: "dev-1"` produces an effective
layer that still contains the `validEnvs` field — the deploy-type layer is
merged as is, nothing subtracts `validEnvs` — refuting the claim that the
effective layer does not contain it. -/
theorem c3_validEnvs_kept_counterexample :
    (getDeployerFactory procEnvEmpty (.error ()) validatorFnNone regexTestFalse
      { env := some "dev-1", deployType := some "dev",
        config := .vobj
          [("deployTypes", .vobj [("dev", .vobj [("validEnvs", .vstr "dev-1")])])] }).map
      (fun v => jsGet v "validEnvs")
      = .ok (.vstr "dev-1") ∧
    JSVal.vstr "dev-1" ≠ .vundefined := by
  constructor
  · simp +decide [getDeployerFactory, getDeployTypeAndEnv, truthyOpt, jsGet, jsOr, jsTruthy,
      jsHasOwn, checkForValidEnv, runEnvNameValidator, jsStrictEq, jsToStr, List.lookup,
      String.isEmpty, procEnvEmpty, validatorFnNone, regexTestFalse,
      bind, Except.bind, pure, Except.pure, throw, throwThe, MonadExceptOf.throw,
      Functor.map, Except.map, composeLayers, lodashMerge, lmergeFields, lmergeVal,
      lmergeArr, objInsert, isUndefined, argsObj]
  · simp

/-- Claim C3 (amended): the composed effective layer keeps the deploy-type
layer's `validEnvs` field — the layer is merged whole, `validEnvs` is not
subtracted — whenever no later layer overrides that key; the resolved
environment value is injected as the `env` field at the end with highest
precedence, as claimed. -/
theorem c3_compose_amended
    (G D E O : List (String × JSVal)) (envv v : JSVal) :
    ((D.map Prod.fst).Nodup → List.lookup "validEnvs" D = some v → isScalar v = true →
      List.lookup "validEnvs" E = none → List.lookup "validEnvs" O = none →
      jsGet (composeLayers (.vobj G) (.vobj D) (.vobj E) (.vobj O) envv) "validEnvs" = v)
    ∧ (isScalar envv = true →
      jsGet (composeLayers (.vobj G) (.vobj D) (.vobj E) (.vobj O) envv) "env" = envv) := by
  constructor
  · intro hnd hD hs hE hO
    have henv : List.lookup "validEnvs" [("env", envv)] = none :=
      lookup_env_singleton envv "validEnvs" (by decide)
    simp only [composeLayers, lodashMerge, List.foldl, jsGet]
    rw [lookup_lmergeFields_absent _ _ _ henv, lookup_lmergeFields_absent _ _ _ hO,
      lookup_lmergeFields_absent _ _ _ hE,
      lookup_lmergeFields_src _ _ _ _ hnd hD (by cases v <;> simp_all [isScalar, isUndefined]),
      lmergeVal_scalar _ _ hs]
    rfl
  · intro hs
    have hu : isUndefined envv = false := by
      cases envv <;> simp_all [isScalar, isUndefined]
    simp only [composeLayers, lodashMerge, List.foldl, jsGet]
    rw [lookup_lmergeFields_src [("env", envv)] _ "env" envv (by simp)
        (by simp [List.lookup]) hu,
      lmergeVal_scalar _ _ hs]
    rfl

/-- Witness instantiating claim C3's amended theorem on a deploy-type layer
declaring `validEnvs: "dev-1"` and the injected environment `"dev-1"`. -/
theorem c3_compose_amended_witness :
    jsGet (composeLayers (.vobj []) (.vobj [("validEnvs", .vstr "dev-1")]) (.vobj [])
      (.vobj []) (.vstr "dev-1")) "validEnvs" = .vstr "dev-1" ∧
    jsGet (composeLayers (.vobj []) (.vobj [("validEnvs", .vstr "dev-1")]) (.vobj [])
      (.vobj []) (.vstr "dev-1")) "env" = .vstr "dev-1" := by
  constructor
  · exact (c3_compose_amended [] [("validEnvs", .vstr "dev-1")] [] [] (.vstr "dev-1")
      (.vstr "dev-1")).1 (by decide) (by simp [List.lookup]) (by decide)
      (by simp [List.lookup]) (by simp [List.lookup])
  · exact (c3_compose_amended [] [("validEnvs", .vstr "dev-1")] [] [] (.vstr "dev-1")
      (.vstr "dev-1")).2 (by decide)

/-- Claim C1 (code bug evaluation): with an explicit deploy type and an
explicit environment — strategy 1, which `getDeployTypeAndEnv` indeed
returns unvalidated — `getDeployerFactory` nevertheless runs
`checkForValidEnv` on the result and fails the run with the
environment-invalid `CallerError` when the deploy type's `validEnvs` does
not accept the explicit environment, contradicting the claim (and the
repository's own documentation of strategy 1) that such a run never fails
with an environment-invalid error. -/
theorem c1_explicit_pair_env_is_validated :
    getDeployerFactory procEnvEmpty (.error ()) validatorFnNone regexTestFalse
      { env := some "prod-2", deployType := some "prod",
        config := .vobj
          [("deployTypes", .vobj [("prod", .vobj [("validEnvs", .vstr "prod-1")])])] }
      = .error (.callerError "Environment is not valid for specified deploy type: prod-2") := by
  simp +decide [getDeployerFactory, getDeployTypeAndEnv, truthyOpt, jsGet, jsOr, jsTruthy,
    jsHasOwn, checkForValidEnv, runEnvNameValidator, jsStrictEq, jsToStr, List.lookup,
    String.isEmpty, procEnvEmpty, validatorFnNone, regexTestFalse,
    bind, Except.bind, pure, Except.pure, throw, throwThe, MonadExceptOf.throw,
    Functor.map, Except.map]

/-- Claim C5: a document whose `global.role` is a function — whatever
function value it is — passes schema validation, and after `validateConfig`
the document is returned with `global.role` the identical original function
value, preserved through the marker substitution and restoration round
trip. -/
theorem c5_function_role_roundtrip (fid : Nat) :
    validateConfig (.vobj [("global", .vobj [("role", .vfun fid)])])
      = .ok (.vobj [("global", .vobj [("role", .vfun fid)])]) := by
  simp +decide [validateConfig, validateConfigWith, coerceWalk, coerceFields, coerceList,
    uncoerceMagicValues, uncoerceFields, uncoerceList, checkConfig, checkConfigField,
    checkArgsSet, checkArgsField, isResolvable, isFunctionMarker, isStringV,
    configKeys, argsSetKeys, bind, Except.bind, pure, Except.pure]

/-- Claim C8: the template `"{stack}-{env}-suffix"` resolved with stack
`"lambda"` and environment `"prod-1"` yields `"lambda-prod-1-suffix"`, and
the template `"{{literal}}"` yields `"{literal}"`: the doubled brace pair
decodes to a single literal brace pair with no substitution attempted
inside it. -/
theorem c8_template_roundtrip (fenv : FnEnv) :
    resolveValue fenv (.vstr "\x7bstack\x7d-\x7benv\x7d-suffix") "lambda" "prod-1" []
      = .vstr "lambda-prod-1-suffix" ∧
    resolveValue fenv (.vstr "\x7b\x7bliteral\x7d\x7d") "lambda" "prod-1" []
      = .vstr "\x7bliteral\x7d" := by
  constructor
  · simp [resolveValue, objAssign, objInsert, format, formatGo, takeName, isNameChar,
      substPlaceholder, List.lookup, jsToStr]
  · rfl

/-- Claim C9: the `resolveValue` of the current Deployer implementation and
the `resolveValue` of the older Deployer implementation are extensionally
equal — the two source functions are textually identical, so for every
value, target stack, environment and parameter dictionary (and every
behaviour of opaque function values) they return the same result. -/
theorem c9_resolve_value_versions_equal (fenv : FnEnv) (value : JSVal)
    (targetStack envName : String) (params : List (String × JSVal)) :
    resolveValue fenv value targetStack envName params
      = resolveValueOld fenv value targetStack envName params := rfl

/-- Claim C10: a configuration document containing a `null`-valued property
(here `{global: null}`) makes `validateConfig` throw the `TypeError` of
`Object.entries(null)` from the marker-restoration walk — `null` passes the
`typeof === "object"` test — instead of failing with the validation
`CallerError`, whatever violation list the validation engine produced. -/
theorem c10_null_config_type_error (check : JSVal → Bool) :
    validateConfigWith check (.vobj [("global", .vnull)])
      = .error (.typeError "Cannot convert undefined or null to object") ∧
    ∀ m, validateConfigWith check (.vobj [("global", .vnull)]) ≠ .error (.callerError m) := by
  refine ⟨?_, ?_⟩
  · simp [validateConfigWith, coerceWalk, coerceFields, uncoerceMagicValues, uncoerceFields,
      bind, Except.bind, pure, Except.pure]
  · intro m h
    rw [show validateConfigWith check (.vobj [("global", .vnull)])
        = .error (.typeError "Cannot convert undefined or null to object") by
      simp [validateConfigWith, coerceWalk, coerceFields, uncoerceMagicValues, uncoerceFields,
        bind, Except.bind, pure, Except.pure]] at h
    simp at h

theorem formatGo_nil (dict : List (String × JSVal)) (n : Nat) (p : Option Char) :
    formatGo dict n p [] = [] := by
  cases n <;> simp [formatGo]

theorem takeName_all_append (l : List Char) (d : Char) (r : List Char)
    (hl : ∀ c ∈ l, isNameChar c = true) (hd : isNameChar d = false) :
    takeName (l ++ d :: r) = (l, d :: r) := by
  induction l with
  | nil => simp [takeName, hd]
  | cons c cs ih =>
    have hc : isNameChar c = true := hl c (by simp)
    have hcs : ∀ c' ∈ cs, isNameChar c' = true := fun c' hm => hl c' (by simp [hm])
    simp [takeName, hc, ih hcs]

/-- Claim C4, counterexample: resolving the template `"{missing}"` — whose
placeholder names a key absent from the dictionary — does not fail: the
embedded `string-template` substitution replaces the missing key by the
empty string and `resolveValue` returns the substituted string `""`,
refuting the claim that the resolution fails with a caller-visible error. -/
theorem c4_missing_placeholder_counterexample :
    resolveValue fnEnvDefaults (.vstr "\x7bmissing\x7d") "lambda" "prod-1" [] = .vstr "" := rfl

/-- Claim C4 (amended): a placeholder naming a key absent from the
resolution dictionary (the caller's params plus the injected stack/env
entries) is substituted by the empty string — `string-template` treats a
missing, null or undefined key as empty — and the resolution succeeds with
the substituted string rather than failing. -/
theorem c4_missing_placeholder_amended (name : String) (fenv : FnEnv) (ts en : String)
    (params : List (String × JSVal))
    (h1 : name.data ≠ [])
    (h2 : ∀ c ∈ name.data, isNameChar c = true)
    (h3 : List.lookup name (objAssign [("stack", .vstr ts), ("env", .vstr en)] params) = none) :
    resolveValue fenv (.vstr ("\x7b" ++ name ++ "\x7d")) ts en params = .vstr "" := by
  have hdata : ("\x7b" ++ name ++ "\x7d").data = '\x7b' :: (name.data ++ ['\x7d']) := by
    simp [String.data_append]
  have hmk : String.mk name.data = name := rfl
  simp only [resolveValue, format, hdata]
  have hlen : ('\x7b' :: (name.data ++ ['\x7d'])).length = (name.data.length + 1) + 1 := by
    simp
  rw [hlen]
  have hstep : formatGo (objAssign [("stack", .vstr ts), ("env", .vstr en)] params)
      ((name.data.length + 1) + 1) none ('\x7b' :: (name.data ++ ['\x7d']))
      = (substPlaceholder (objAssign [("stack", .vstr ts), ("env", .vstr en)] params)
          (String.mk name.data)).data
        ++ formatGo (objAssign [("stack", .vstr ts), ("env", .vstr en)] params)
            (name.data.length + 1) (some '\x7d') [] := by
    simp only [formatGo]
    rw [takeName_all_append name.data '\x7d' [] h2 (by decide)]
    simp [h1, formatGo_nil]
  rw [hstep, formatGo_nil, hmk]
  simp [substPlaceholder, h3]

/-- Witness instantiating claim C4's amended theorem at the placeholder name
`missing` with empty caller params. -/
theorem c4_missing_placeholder_amended_witness :
    resolveValue fnEnvDefaults (.vstr ("\x7b" ++ "missing" ++ "\x7d")) "lambda" "prod-1" []
      = .vstr "" :=
  c4_missing_placeholder_amended "missing" fnEnvDefaults "lambda" "prod-1" []
    (by decide) (by decide) (by simp [objAssign, objInsert, List.lookup])

theorem isEmpty_false_of_ne (s : String) (h : s ≠ "") : s.isEmpty = false := by
  cases he : s.isEmpty
  · rfl
  · exact absurd ((String.isEmpty_iff s).mp he) h

/-- Shape of a `validEnvs` value that strategy 5 accepts as naming a single
environment: a non-empty (truthy) string, or an array of exactly one
element — whatever that element is. -/
def isSingleValidEnv : JSVal → Bool
  | .vstr s => !s.isEmpty
  | .varr l => l.length == 1
  | _ => false

/-- Claim C6, counterexample: with no environment available and deploy type
`qa`, (i) a `validEnvs` of `[/qa-.*/]` — a single-element list whose element
is not a literal string — does not fail with the cannot-auto-determine
error as the claim demands but succeeds, returning the regular-expression
object itself as the environment value; and (ii) a `validEnvs` of the bare
literal string `""` does not resolve to that literal but fails, because the
empty string is falsy. -/
theorem c6_single_valid_env_counterexample :
    getDeployTypeAndEnv procEnvEmpty (.error ()) { deployType := some "qa" }
      (.vobj [("qa", .vobj [("validEnvs", .varr [.vregex "qa-.*"])])])
      = .ok ("qa", .vregex "qa-.*", "from DEPLOY-TYPE arg",
          "only one valid env name for deploy type") ∧
    getDeployTypeAndEnv procEnvEmpty (.error ()) { deployType := some "qa" }
      (.vobj [("qa", .vobj [("validEnvs", .vstr "")])])
      = .error (.callerError "Could not autmatically determine environment name from DEPLOY-TYPE. Consider using the --env option") := by
  constructor
  · simp +decide [getDeployTypeAndEnv, truthyOpt, jsGet, jsTruthy, List.lookup, String.isEmpty,
      procEnvEmpty]
  · simp +decide [getDeployTypeAndEnv, truthyOpt, jsGet, jsTruthy, List.lookup, String.isEmpty,
      procEnvEmpty]

/-- Claim C6 (amended): when no environment is available from the `--env`
option or the environment variable and the branch strategy is not taken,
then with the deploy type given: a `validEnvs` that is a truthy (non-empty)
literal string resolves to that literal; a `validEnvs` that is a
single-element list resolves to that list's element — whatever value it is,
not only a string; any other `validEnvs` shape (including a missing deploy
type, a missing or falsy `validEnvs`, the empty-string literal, a longer or
empty list, a bare regular expression or function) fails with the
cannot-auto-determine message; and with the deploy type absent the run
fails with the distinct message directing the caller to supply the deploy
type or the environment. -/
theorem c6_single_valid_env_amended
    (procEnv : String → Option String) (gitBranch : Except Unit String) (a : Args) (dts : JSVal)
    (h1 : truthyOpt a.env = false) (h2 : truthyOpt (procEnv a.envNameEnvVar) = false) :
    (∀ dt, a.deployType = some dt → dt ≠ "" → a.branchDeployType.contains dt = false →
      ((∀ s, jsGet (jsGet dts dt) "validEnvs" = .vstr s → s ≠ "" →
        getDeployTypeAndEnv procEnv gitBranch a dts
          = .ok (dt, .vstr s, "from DEPLOY-TYPE arg", "only one valid env name for deploy type"))
      ∧ (∀ v, jsGet (jsGet dts dt) "validEnvs" = .varr [v] →
        getDeployTypeAndEnv procEnv gitBranch a dts
          = .ok (dt, v, "from DEPLOY-TYPE arg", "only one valid env name for deploy type"))
      ∧ (isSingleValidEnv (jsGet (jsGet dts dt) "validEnvs") = false →
        getDeployTypeAndEnv procEnv gitBranch a dts
          = .error (.callerError "Could not autmatically determine environment name from DEPLOY-TYPE. Consider using the --env option"))))
    ∧ (truthyOpt a.deployType = false →
      getDeployTypeAndEnv procEnv gitBranch a dts
        = .error (.callerError "Could not autmatically determine environment name. Consider specifying the DEPLOY-TYPE, or use the --env option")) := by
  constructor
  · intro dt hdt hne hbr
    have hdtt : truthyOpt a.deployType = true := by
      rw [hdt]
      simp [truthyOpt, isEmpty_false_of_ne dt hne]
    have hbr' : dt ∉ a.branchDeployType := by
      simpa using hbr
    have hgetd : a.deployType.getD "" = dt := by
      rw [hdt]
      rfl
    have htro : ¬(truthyOpt a.env = true ∧ truthyOpt a.deployType = true) := by
      simp [h1]
    have hshape : ∀ w : JSVal, jsGet (jsGet dts dt) "validEnvs" = w → w ≠ .vundefined →
        jsTruthy dts = true ∧ jsTruthy (jsGet dts dt) = true := by
      intro w hw hne'
      cases dts <;> simp [jsGet] at hw ⊢ <;> try exact absurd hw.symm hne'
      case vobj D =>
        cases hl : List.lookup dt D with
        | none =>
          rw [hl] at hw
          simp [jsGet] at hw
          exact absurd hw.symm hne'
        | some w' =>
          rw [hl] at hw
          cases w' <;> simp [jsGet, jsTruthy] at hw ⊢ <;> exact absurd hw.symm hne'
    refine ⟨?_, ?_, ?_⟩
    · intro s hve hs
      have hg := hshape _ hve (by simp)
      have hstv : jsTruthy (JSVal.vstr s) = true := by
        simp [jsTruthy, isEmpty_false_of_ne s hs]
      have hst : jsTruthy (jsGet (jsGet dts dt) "validEnvs") = true := by
        rw [hve]
        exact hstv
      simp [getDeployTypeAndEnv, htro, h1, h2, hdtt, hgetd, hbr', hg.1, hg.2, hst, hve, hstv]
    · intro v hve
      have hg := hshape _ hve (by simp)
      have hstv : jsTruthy (JSVal.varr [v]) = true := by
        simp [jsTruthy]
      have hst : jsTruthy (jsGet (jsGet dts dt) "validEnvs") = true := by
        rw [hve]
        exact hstv
      simp [getDeployTypeAndEnv, htro, h1, h2, hdtt, hgetd, hbr', hg.1, hg.2, hst, hve, hstv]
    · intro hsv
      by_cases hg : jsTruthy dts = true ∧ jsTruthy (jsGet dts dt) = true ∧
          jsTruthy (jsGet (jsGet dts dt) "validEnvs") = true
      · obtain ⟨hg1, hg2, hg3⟩ := hg
        cases hve : jsGet (jsGet dts dt) "validEnvs" with
        | vstr s =>
          rw [hve] at hg3 hsv
          simp [jsTruthy] at hg3
          simp [isSingleValidEnv, hg3] at hsv
        | varr l =>
          rw [hve] at hsv
          simp [isSingleValidEnv] at hsv
          match l, hsv with
          | [], _ =>
            simp [getDeployTypeAndEnv, htro, h1, h2, hdtt, hgetd, hbr', hg1, hg2, hg3, hve]
          | x :: y :: rest, _ =>
            simp [getDeployTypeAndEnv, htro, h1, h2, hdtt, hgetd, hbr', hg1, hg2, hg3, hve]
        | _ =>
          rw [hve] at hg3
          simp [getDeployTypeAndEnv, htro, h1, h2, hdtt, hgetd, hbr', hg1, hg2, hg3, hve]
      · simp [getDeployTypeAndEnv, htro, h1, h2, hdtt, hgetd, hbr', hg]
  · intro hdtf
    simp [getDeployTypeAndEnv, h1, h2, hdtf]

/-- Witness instantiating claim C6's amended theorem: deploy type `qa` with
`validEnvs: "qa-fixed"` and no other environment information resolves to
`("qa", "qa-fixed")`, and with no deploy type at all the distinct
cannot-auto-determine message is raised. -/
theorem c6_single_valid_env_amended_witness :
    getDeployTypeAndEnv procEnvEmpty (.error ()) { deployType := some "qa" }
      (.vobj [("qa", .vobj [("validEnvs", .vstr "qa-fixed")])])
      = .ok ("qa", .vstr "qa-fixed", "from DEPLOY-TYPE arg",
          "only one valid env name for deploy type") ∧
    getDeployTypeAndEnv procEnvEmpty (.error ()) {}
      (.vobj [("qa", .vobj [("validEnvs", .vstr "qa-fixed")])])
      = .error (.callerError "Could not autmatically determine environment name. Consider specifying the DEPLOY-TYPE, or use the --env option") := by
  constructor
  · exact ((c6_single_valid_env_amended procEnvEmpty (.error ()) { deployType := some "qa" }
      (.vobj [("qa", .vobj [("validEnvs", .vstr "qa-fixed")])]) (by decide)
      (by simp [procEnvEmpty, truthyOpt])).1 "qa" rfl (by decide) (by decide)).1 "qa-fixed"
      (by simp [jsGet, List.lookup]) (by decide)
  · exact (c6_single_valid_env_amended procEnvEmpty (.error ()) {}
      (.vobj [("qa", .vobj [("validEnvs", .vstr "qa-fixed")])]) (by decide)
      (by simp [procEnvEmpty, truthyOpt])).2 (by decide)

theorem checkProps_ok (l : List (String × JSVal))
    (h : ∀ p ∈ l, isEmptyOrNull p.2 = false) : checkProps l = .ok () := by
  induction l with
  | nil => rfl
  | cons hd tl ih =>
    obtain ⟨n, v⟩ := hd
    have hv : isEmptyOrNull v = false := h (n, v) (by simp)
    simp [checkProps, hv]
    exact ih fun p hp => h p (by simp [hp])

theorem checkProps_find (l : List (String × JSVal)) (n : String) (v : JSVal)
    (h : l.find? (fun p => isEmptyOrNull p.2) = some (n, v)) :
    checkProps l = .error (.callerError ("Resolved value for " ++ n ++ " cannot be empty or null")) := by
  induction l with
  | nil => simp [List.find?] at h
  | cons hd tl ih =>
    obtain ⟨n', v'⟩ := hd
    cases he : isEmptyOrNull v' with
    | true =>
      rw [List.find?_cons_of_pos _ (by simpa using he)] at h
      simp at h
      simp [checkProps, he, h.1]
    | false =>
      rw [List.find?_cons_of_neg _ (by simpa using he)] at h
      simp [checkProps, he]
      exact ih h

/-- Claim C7, counterexample: a configuration whose `outputTemplate` is
`null` (so the resolved output template is `null`, squarely an "empty or
null" value of the claim) does not fail with a caller error naming
`outputTemplate`: `path.dirname(this.outputTemplate)` runs before the
required-value check and throws a `TypeError` instead. -/
theorem c7_required_fields_counterexample :
    mkDeployer fnEnvDefaults "web" "dev-1"
      { deployBucket := .vstr "b", outputTemplate := .vnull } []
      = .error (.typeError "The \"path\" argument must be of type string") ∧
    ∀ m, mkDeployer fnEnvDefaults "web" "dev-1"
      { deployBucket := .vstr "b", outputTemplate := .vnull } []
      ≠ .error (.callerError m) := by
  have h : mkDeployer fnEnvDefaults "web" "dev-1"
      { deployBucket := .vstr "b", outputTemplate := .vnull } []
      = .error (.typeError "The \"path\" argument must be of type string") := by
    simp +decide [mkDeployer, deployerParameters, resolvedSix, resolveValue, effDefault,
      isUndefined, defaultFnEnv, fnEnvDefaults, fidDefaultInputTemplate, fidDefaultOutputTemplate,
      fidDefaultStackNameGenerator, fidDefaultDeployBucketPfx, objAssign, objInsert,
      format, formatGo, takeName, isNameChar, substPlaceholder, jsToStr, List.lookup,
      pathDirname, checkProps, isEmptyOrNull, String.isEmpty,
      bind, Except.bind, pure, Except.pure, throw, throwThe, MonadExceptOf.throw,
      Functor.map, Except.map]
  refine ⟨h, fun m hm => ?_⟩
  rw [h] at hm
  simp at hm

/-- Claim C7 (amended): with non-empty stack and environment names, when the
resolved output template is a string, the constructor fails with the caller
error naming the first of {inputTemplate, outputTemplate, cfnStackName,
deployBucket, deployBucketPrefix, role} whose resolved value is empty or
null, and succeeds carrying exactly the six resolved values when none is;
when the resolved output template is not a string (for example a resolved
`null`), construction instead fails with the `TypeError` thrown by
`path.dirname` before the required-value check. -/
theorem c7_required_fields_amended (fenv : FnEnv) (ts en : String) (cfg : DeployerConfig)
    (params : List (String × JSVal)) (hts : ts.isEmpty = false) (hen : en.isEmpty = false) :
    (isStringV (resolveValue fenv (effDefault cfg.outputTemplate (.vfun fidDefaultOutputTemplate))
        ts en (deployerParameters fenv ts en cfg params)) = false →
      mkDeployer fenv ts en cfg params
        = .error (.typeError "The \"path\" argument must be of type string"))
    ∧ (∀ n v, isStringV (resolveValue fenv
          (effDefault cfg.outputTemplate (.vfun fidDefaultOutputTemplate))
          ts en (deployerParameters fenv ts en cfg params)) = true →
        (resolvedSix fenv ts en cfg params).find? (fun p => isEmptyOrNull p.2) = some (n, v) →
      mkDeployer fenv ts en cfg params
        = .error (.callerError ("Resolved value for " ++ n ++ " cannot be empty or null")))
    ∧ (isStringV (resolveValue fenv
          (effDefault cfg.outputTemplate (.vfun fidDefaultOutputTemplate))
          ts en (deployerParameters fenv ts en cfg params)) = true →
        (∀ p ∈ resolvedSix fenv ts en cfg params, isEmptyOrNull p.2 = false) →
        cfg.stackTags ≠ .vnull →
      (mkDeployer fenv ts en cfg params).map (fun d =>
          (d.inputTemplate, d.outputTemplate, d.cfnStackName,
           d.deployBucket, d.deployBucketPfx, d.role))
        = .ok (((resolvedSix fenv ts en cfg params).headD ("", .vundefined)).2,
            resolveValue fenv (effDefault cfg.outputTemplate (.vfun fidDefaultOutputTemplate))
              ts en (deployerParameters fenv ts en cfg params),
            (((resolvedSix fenv ts en cfg params).drop 2).headD ("", .vundefined)).2,
            (((resolvedSix fenv ts en cfg params).drop 3).headD ("", .vundefined)).2,
            (((resolvedSix fenv ts en cfg params).drop 4).headD ("", .vundefined)).2,
            (((resolvedSix fenv ts en cfg params).drop 5).headD ("", .vundefined)).2)) := by
  refine ⟨?_, ?_, ?_⟩
  · intro hns
    cases hv : resolveValue fenv (effDefault cfg.outputTemplate (.vfun fidDefaultOutputTemplate))
        ts en (deployerParameters fenv ts en cfg params) <;> rw [hv] at hns
    case vstr s => simp [isStringV] at hns
    all_goals
      simp [mkDeployer, hts, hen, hv, pathDirname,
        bind, Except.bind, pure, Except.pure, throw, throwThe, MonadExceptOf.throw]
  · intro n v hstr hfind
    cases hv : resolveValue fenv (effDefault cfg.outputTemplate (.vfun fidDefaultOutputTemplate))
        ts en (deployerParameters fenv ts en cfg params) <;>
      rw [hv] at hstr <;> try simp [isStringV] at hstr
    case vstr s =>
      simp [mkDeployer, hts, hen, hv, pathDirname, checkProps_find _ _ _ hfind,
        bind, Except.bind, pure, Except.pure, throw, throwThe, MonadExceptOf.throw]
  · intro hstr hall htags
    cases hv : resolveValue fenv (effDefault cfg.outputTemplate (.vfun fidDefaultOutputTemplate))
        ts en (deployerParameters fenv ts en cfg params) <;>
      rw [hv] at hstr <;> try simp [isStringV] at hstr
    case vstr s =>
      have hck : checkProps (resolvedSix fenv ts en cfg params) = .ok () := checkProps_ok _ hall
      have htags' : effDefault cfg.stackTags (.vobj []) ≠ .vnull := by
        intro he
        unfold effDefault at he
        split at he
        · exact absurd he (by simp)
        · exact htags he
      cases htv : effDefault cfg.stackTags (.vobj []) <;> rw [htv] at htags'
      case vnull => exact absurd rfl htags'
      all_goals
        simp [mkDeployer, hts, hen, hv, pathDirname, hck, htv, List.headD,
          bind, Except.bind, pure, Except.pure, throw, throwThe, MonadExceptOf.throw,
          Functor.map, Except.map]

/-- Witness instantiating claim C7's amended theorem: with every other field
left to its defaults, an absent `deployBucket` resolves to `undefined` and
construction fails naming `deployBucket` (the first empty of the six); with
`deployBucket: "b"` every required value resolves non-empty and
construction succeeds carrying the six resolved values. -/
theorem c7_required_fields_amended_witness :
    mkDeployer fnEnvDefaults "web" "dev-1" {} []
      = .error (.callerError "Resolved value for deployBucket cannot be empty or null") ∧
    (mkDeployer fnEnvDefaults "web" "dev-1" { deployBucket := .vstr "b" } []).map (fun d =>
        (d.inputTemplate, d.outputTemplate, d.cfnStackName,
         d.deployBucket, d.deployBucketPfx, d.role))
      = .ok (((resolvedSix fnEnvDefaults "web" "dev-1" { deployBucket := .vstr "b" } []).headD ("", .vundefined)).2,
          resolveValue fnEnvDefaults
            (effDefault (DeployerConfig.outputTemplate { deployBucket := .vstr "b" })
              (.vfun fidDefaultOutputTemplate))
            "web" "dev-1" (deployerParameters fnEnvDefaults "web" "dev-1" { deployBucket := .vstr "b" } []),
          (((resolvedSix fnEnvDefaults "web" "dev-1" { deployBucket := .vstr "b" } []).drop 2).headD ("", .vundefined)).2,
          (((resolvedSix fnEnvDefaults "web" "dev-1" { deployBucket := .vstr "b" } []).drop 3).headD ("", .vundefined)).2,
          (((resolvedSix fnEnvDefaults "web" "dev-1" { deployBucket := .vstr "b" } []).drop 4).headD ("", .vundefined)).2,
          (((resolvedSix fnEnvDefaults "web" "dev-1" { deployBucket := .vstr "b" } []).drop 5).headD ("", .vundefined)).2) := by
  constructor
  · refine (c7_required_fields_amended fnEnvDefaults "web" "dev-1" {} []
      (by decide) (by decide)).2.1 "deployBucket" .vundefined ?_ ?_
    · simp [resolveValue, effDefault, isUndefined, fnEnvDefaults, defaultFnEnv,
        fidDefaultOutputTemplate, fidDefaultStackNameGenerator, fidDefaultInputTemplate,
        fidDefaultDeployBucketPfx, deployerParameters, objAssign, objInsert, isStringV]
    · simp only [resolvedSix, resolveValue, effDefault, isUndefined, fnEnvDefaults, defaultFnEnv,
        fidDefaultOutputTemplate, fidDefaultStackNameGenerator, fidDefaultInputTemplate,
        fidDefaultDeployBucketPfx, deployerParameters, objAssign, objInsert]
      rfl
  · refine (c7_required_fields_amended fnEnvDefaults "web" "dev-1" { deployBucket := .vstr "b" } []
      (by decide) (by decide)).2.2 ?_ ?_ (by simp)
    · simp [resolveValue, effDefault, isUndefined, fnEnvDefaults, defaultFnEnv,
        fidDefaultOutputTemplate, fidDefaultStackNameGenerator, fidDefaultInputTemplate,
        fidDefaultDeployBucketPfx, deployerParameters, objAssign, objInsert, isStringV]
    · intro p hp
      simp [resolvedSix, resolveValue, effDefault, isUndefined, fnEnvDefaults, defaultFnEnv,
        fidDefaultOutputTemplate, fidDefaultStackNameGenerator, fidDefaultInputTemplate,
        fidDefaultDeployBucketPfx, deployerParameters, objAssign, objInsert,
        format, formatGo, takeName, isNameChar, substPlaceholder,
        List.lookup, jsToStr, String.isEmpty] at hp
      rcases hp with h | h | h | h | h | h <;> subst h <;> decide

end Sirocco
